import Mathlib

set_option maxHeartbeats 1000000

namespace P402

/-! Shallow embedding of the p402 payment verification and settlement core:
the X402PaymentServer class of src/src/server/index.ts together with the
payload construction of src/src/client/index.ts.  The transport codec the
code delegates to the platform (base64 via Buffer, UTF-8, and the JSON
documents produced by JSON.stringify / consumed by JSON.parse for the two
fixed payload schemas) is modelled executably below, so that the round-trip
and verification claims can be settled by computation and proof. -/

/-! Decimal digits: the JSON number grammar for integer-valued numbers, as
printed by JSON.stringify (an optional minus sign followed by decimal
digits) and read back by JSON.parse. -/

def digitChar (d : Nat) : Char := Char.ofNat (48 + d)

def isDigitCh (c : Char) : Bool := decide (48 ≤ c.toNat ∧ c.toNat ≤ 57)

def digitVal (c : Char) : Nat := c.toNat - 48

def natToCharsAux (n : Nat) (acc : List Char) : List Char :=
  if h : n < 10 then digitChar n :: acc
  else natToCharsAux (n / 10) (digitChar (n % 10) :: acc)
  termination_by n
  decreasing_by exact Nat.div_lt_self (by omega) (by omega)

def natToChars (n : Nat) : List Char := natToCharsAux n []

def intToChars (n : Int) : List Char :=
  if n < 0 then Char.ofNat 45 :: natToChars n.natAbs else natToChars n.natAbs

def takeDigits : List Char → List Char × List Char
  | [] => ([], [])
  | c :: rest =>
    if isDigitCh c then
      let p := takeDigits rest
      (c :: p.1, p.2)
    else ([], c :: rest)

def digitsToNat (ds : List Char) : Nat := ds.foldl (fun a c => a * 10 + digitVal c) 0

def parseNatDigits (input : List Char) : Option (Nat × List Char) :=
  let p := takeDigits input
  if p.1 = [] then none else some (digitsToNat p.1, p.2)

def parseInt (input : List Char) : Option (Int × List Char) :=
  match input with
  | [] => none
  | c :: rest =>
    if c = Char.ofNat 45 then
      match parseNatDigits rest with
      | none => none
      | some (n, rest2) => some (-(n : Int), rest2)
    else
      match parseNatDigits (c :: rest) with
      | none => none
      | some (n, rest2) => some ((n : Int), rest2)

theorem digitChar_isDigit {d : Nat} (h : d < 10) : isDigitCh (digitChar d) = true := by
  interval_cases d <;> decide

theorem digitVal_digitChar {d : Nat} (h : d < 10) : digitVal (digitChar d) = d := by
  interval_cases d <;> decide

theorem natToCharsAux_eq (n : Nat) (acc : List Char) :
    natToCharsAux n acc = natToChars n ++ acc := by
  induction n using Nat.strong_induction_on generalizing acc with
  | _ n ih =>
    rw [natToChars]
    conv_lhs => rw [natToCharsAux]
    conv_rhs => rw [natToCharsAux]
    by_cases h : n < 10
    · simp [h]
    · simp only [h, dite_false]
      rw [ih (n / 10) (Nat.div_lt_self (by omega) (by omega)),
        ih (n / 10) (Nat.div_lt_self (by omega) (by omega))]
      exact (List.append_assoc (natToChars (n / 10)) [digitChar (n % 10)] acc).symm

theorem natToChars_all_digits (n : Nat) :
    ∀ c ∈ natToChars n, isDigitCh c = true := by
  induction n using Nat.strong_induction_on with
  | _ n ih =>
    by_cases h : n < 10
    · rw [natToChars, natToCharsAux]
      simp only [h, dite_true, List.mem_singleton]
      intro c hc
      subst hc
      exact digitChar_isDigit h
    · rw [natToChars, natToCharsAux]
      simp only [h, dite_false]
      rw [natToCharsAux_eq]
      intro c hc
      rcases List.mem_append.mp hc with h1 | h1
      · exact ih (n / 10) (Nat.div_lt_self (by omega) (by omega)) c h1
      · rcases List.mem_singleton.mp h1 with rfl
        exact digitChar_isDigit (by omega)

theorem natToChars_ne_nil (n : Nat) : natToChars n ≠ [] := by
  by_cases h : n < 10
  · rw [natToChars, natToCharsAux]
    simp [h]
  · rw [natToChars, natToCharsAux]
    simp only [h, dite_false]
    rw [natToCharsAux_eq]
    simp

theorem digitsToNat_append_single (ds : List Char) (c : Char) :
    digitsToNat (ds ++ [c]) = digitsToNat ds * 10 + digitVal c := by
  simp [digitsToNat]

theorem digitsToNat_natToChars (n : Nat) : digitsToNat (natToChars n) = n := by
  induction n using Nat.strong_induction_on with
  | _ n ih =>
    by_cases h : n < 10
    · rw [natToChars, natToCharsAux]
      simp only [h, dite_true]
      show digitsToNat [digitChar n] = n
      rw [show [digitChar n] = [] ++ [digitChar n] from rfl, digitsToNat_append_single]
      simp [digitsToNat, digitVal_digitChar h]
    · rw [natToChars, natToCharsAux]
      simp only [h, dite_false]
      rw [natToCharsAux_eq, digitsToNat_append_single,
        ih (n / 10) (Nat.div_lt_self (by omega) (by omega)),
        digitVal_digitChar (Nat.mod_lt n (by omega))]
      omega

theorem takeDigits_append (ds rest : List Char)
    (hds : ∀ c ∈ ds, isDigitCh c = true)
    (hrest : rest = [] ∨ ∃ c rest2, rest = c :: rest2 ∧ isDigitCh c = false) :
    takeDigits (ds ++ rest) = (ds, rest) := by
  induction ds with
  | nil =>
    rcases hrest with rfl | ⟨c, rest2, rfl, hc⟩
    · rfl
    · simp [takeDigits, hc]
  | cons d ds ih =>
    have hd : isDigitCh d = true := hds d (by simp)
    rw [List.cons_append, takeDigits]
    simp only [hd, if_true]
    rw [ih (fun c hc => hds c (by simp [hc]))]

theorem parseNatDigits_append (n : Nat) (rest : List Char)
    (hrest : rest = [] ∨ ∃ c rest2, rest = c :: rest2 ∧ isDigitCh c = false) :
    parseNatDigits (natToChars n ++ rest) = some (n, rest) := by
  rw [parseNatDigits, takeDigits_append _ _ (natToChars_all_digits n) hrest]
  simp [natToChars_ne_nil n, digitsToNat_natToChars]

theorem isDigitCh_ne_minus {c : Char} (h : isDigitCh c = true) : ¬(c = Char.ofNat 45) := by
  intro heq
  subst heq
  simp [isDigitCh] at h

theorem parseInt_append (n : Int) (rest : List Char)
    (hrest : rest = [] ∨ ∃ c rest2, rest = c :: rest2 ∧ isDigitCh c = false) :
    parseInt (intToChars n ++ rest) = some (n, rest) := by
  by_cases hn : n < 0
  · rw [intToChars, if_pos hn, List.cons_append, parseInt]
    simp only [if_pos rfl]
    rw [parseNatDigits_append n.natAbs rest hrest]
    show some (-(n.natAbs : Int), rest) = some (n, rest)
    have h2 : -(n.natAbs : Int) = n := by omega
    rw [h2]
  · rw [intToChars, if_neg hn]
    obtain ⟨d, ds, hds⟩ : ∃ d ds, natToChars n.natAbs = d :: ds := by
      cases h : natToChars n.natAbs with
      | nil => exact absurd h (natToChars_ne_nil _)
      | cons d ds => exact ⟨d, ds, rfl⟩
    have hd : isDigitCh d = true := by
      have := natToChars_all_digits n.natAbs
      rw [hds] at this
      exact this d (by simp)
    rw [hds, List.cons_append, parseInt]
    simp only [if_neg (isDigitCh_ne_minus hd)]
    rw [← List.cons_append, ← hds, parseNatDigits_append n.natAbs rest hrest]
    show some ((n.natAbs : Int), rest) = some (n, rest)
    have h2 : (n.natAbs : Int) = n := by omega
    rw [h2]

/-! JSON string escaping, exactly as produced by JSON.stringify (quote and
backslash escaped, control characters as the named escapes b t n f r or as
a lowercase hex \u escape) and the matching fragment of the JSON.parse
string grammar. -/

def qt : Char := Char.ofNat 34

def bsl : Char := Char.ofNat 92

def hexChar (d : Nat) : Char :=
  if d < 10 then Char.ofNat (48 + d) else Char.ofNat (87 + d)

def hexVal (c : Char) : Option Nat :=
  if 48 ≤ c.toNat ∧ c.toNat ≤ 57 then some (c.toNat - 48)
  else if 97 ≤ c.toNat ∧ c.toNat ≤ 102 then some (c.toNat - 87)
  else if 65 ≤ c.toNat ∧ c.toNat ≤ 70 then some (c.toNat - 55)
  else none

theorem hexVal_hexChar : ∀ d < 16, hexVal (hexChar d) = some d := by decide

def escapeChar (c : Char) : List Char :=
  if c = qt then [bsl, qt]
  else if c = bsl then [bsl, bsl]
  else if c.toNat = 8 then [bsl, Char.ofNat 98]
  else if c.toNat = 9 then [bsl, Char.ofNat 116]
  else if c.toNat = 10 then [bsl, Char.ofNat 110]
  else if c.toNat = 12 then [bsl, Char.ofNat 102]
  else if c.toNat = 13 then [bsl, Char.ofNat 114]
  else if c.toNat < 32 then
    [bsl, Char.ofNat 117, Char.ofNat 48, Char.ofNat 48,
      hexChar (c.toNat / 16), hexChar (c.toNat % 16)]
  else [c]

def escapeStr (s : List Char) : List Char := (s.map escapeChar).flatten

def unescapeChar (e : Char) : Option Char :=
  if e = qt then some qt
  else if e = bsl then some bsl
  else if e = Char.ofNat 47 then some (Char.ofNat 47)
  else if e = Char.ofNat 98 then some (Char.ofNat 8)
  else if e = Char.ofNat 116 then some (Char.ofNat 9)
  else if e = Char.ofNat 110 then some (Char.ofNat 10)
  else if e = Char.ofNat 102 then some (Char.ofNat 12)
  else if e = Char.ofNat 114 then some (Char.ofNat 13)
  else none

mutual

def parseStrAux : List Char → Option (List Char × List Char)
  | [] => none
  | c :: rest =>
    if c = qt then some ([], rest)
    else if c = bsl then parseEsc rest
    else (parseStrAux rest).map (fun p => (c :: p.1, p.2))

def parseEsc : List Char → Option (List Char × List Char)
  | [] => none
  | e :: rest2 =>
    if e = Char.ofNat 117 then parseHexEsc rest2
    else
      match unescapeChar e with
      | some u => (parseStrAux rest2).map (fun p => (u :: p.1, p.2))
      | none => none

def parseHexEsc : List Char → Option (List Char × List Char)
  | h1 :: h2 :: h3 :: h4 :: rest3 =>
    match hexVal h1, hexVal h2, hexVal h3, hexVal h4 with
    | some v1, some v2, some v3, some v4 =>
      (parseStrAux rest3).map
        (fun p => (Char.ofNat (((v1 * 16 + v2) * 16 + v3) * 16 + v4) :: p.1, p.2))
    | _, _, _, _ => none
  | _ => none

end

theorem parseStrAux_cons_plain (c : Char) (rest : List Char) (h1 : ¬c = qt) (h2 : ¬c = bsl) :
    parseStrAux (c :: rest) = (parseStrAux rest).map (fun p => (c :: p.1, p.2)) := by
  rw [parseStrAux, if_neg h1, if_neg h2]

theorem parseStrAux_esc (e u : Char) (rest : List Char) (hne : ¬e = Char.ofNat 117)
    (hu : unescapeChar e = some u) :
    parseStrAux (bsl :: e :: rest) = (parseStrAux rest).map (fun p => (u :: p.1, p.2)) := by
  rw [parseStrAux, if_neg (by decide : ¬bsl = qt), if_pos rfl, parseEsc, if_neg hne, hu]

theorem parseStrAux_hex (h1 h2 h3 h4 : Char) (v1 v2 v3 v4 : Nat) (rest : List Char)
    (e1 : hexVal h1 = some v1) (e2 : hexVal h2 = some v2)
    (e3 : hexVal h3 = some v3) (e4 : hexVal h4 = some v4) :
    parseStrAux (bsl :: Char.ofNat 117 :: h1 :: h2 :: h3 :: h4 :: rest) =
      (parseStrAux rest).map
        (fun p => (Char.ofNat (((v1 * 16 + v2) * 16 + v3) * 16 + v4) :: p.1, p.2)) := by
  rw [parseStrAux, if_neg (by decide : ¬bsl = qt), if_pos rfl, parseEsc, if_pos rfl,
    parseHexEsc, e1, e2, e3, e4]

theorem parseStrAux_escapeChar (c : Char) (rest : List Char) :
    parseStrAux (escapeChar c ++ rest) = (parseStrAux rest).map (fun p => (c :: p.1, p.2)) := by
  rw [escapeChar]
  by_cases hq : c = qt
  · subst hq
    rw [if_pos rfl]
    show parseStrAux (bsl :: qt :: rest) = _
    rw [parseStrAux_esc qt qt rest (by decide) (by decide)]
  · rw [if_neg hq]
    by_cases hb : c = bsl
    · subst hb
      rw [if_pos rfl]
      show parseStrAux (bsl :: bsl :: rest) = _
      rw [parseStrAux_esc bsl bsl rest (by decide) (by decide)]
    · rw [if_neg hb]
      by_cases h8 : c.toNat = 8
      · rw [if_pos h8]
        show parseStrAux (bsl :: Char.ofNat 98 :: rest) = _
        rw [parseStrAux_esc _ _ rest (by decide) (by decide : unescapeChar (Char.ofNat 98) = some (Char.ofNat 8))]
        rw [show (8 : Nat) = c.toNat from h8.symm, Char.ofNat_toNat]
      · rw [if_neg h8]
        by_cases h9 : c.toNat = 9
        · rw [if_pos h9]
          show parseStrAux (bsl :: Char.ofNat 116 :: rest) = _
          rw [parseStrAux_esc _ _ rest (by decide) (by decide : unescapeChar (Char.ofNat 116) = some (Char.ofNat 9))]
          rw [show (9 : Nat) = c.toNat from h9.symm, Char.ofNat_toNat]
        · rw [if_neg h9]
          by_cases h10 : c.toNat = 10
          · rw [if_pos h10]
            show parseStrAux (bsl :: Char.ofNat 110 :: rest) = _
            rw [parseStrAux_esc _ _ rest (by decide) (by decide : unescapeChar (Char.ofNat 110) = some (Char.ofNat 10))]
            rw [show (10 : Nat) = c.toNat from h10.symm, Char.ofNat_toNat]
          · rw [if_neg h10]
            by_cases h12 : c.toNat = 12
            · rw [if_pos h12]
              show parseStrAux (bsl :: Char.ofNat 102 :: rest) = _
              rw [parseStrAux_esc _ _ rest (by decide) (by decide : unescapeChar (Char.ofNat 102) = some (Char.ofNat 12))]
              rw [show (12 : Nat) = c.toNat from h12.symm, Char.ofNat_toNat]
            · rw [if_neg h12]
              by_cases h13 : c.toNat = 13
              · rw [if_pos h13]
                show parseStrAux (bsl :: Char.ofNat 114 :: rest) = _
                rw [parseStrAux_esc _ _ rest (by decide) (by decide : unescapeChar (Char.ofNat 114) = some (Char.ofNat 13))]
                rw [show (13 : Nat) = c.toNat from h13.symm, Char.ofNat_toNat]
              · rw [if_neg h13]
                by_cases hc : c.toNat < 32
                · rw [if_pos hc]
                  show parseStrAux (bsl :: Char.ofNat 117 :: Char.ofNat 48 :: Char.ofNat 48 ::
                    hexChar (c.toNat / 16) :: hexChar (c.toNat % 16) :: rest) = _
                  rw [parseStrAux_hex _ _ _ _ 0 0 (c.toNat / 16) (c.toNat % 16) rest
                    (by decide) (by decide)
                    (hexVal_hexChar _ (by omega)) (hexVal_hexChar _ (by omega))]
                  rw [show ((0 * 16 + 0) * 16 + c.toNat / 16) * 16 + c.toNat % 16 = c.toNat
                    from by omega, Char.ofNat_toNat]
                · rw [if_neg hc]
                  show parseStrAux (c :: rest) = _
                  exact parseStrAux_cons_plain c rest hq hb

theorem parseStrAux_escapeStr (s rest : List Char) :
    parseStrAux (escapeStr s ++ qt :: rest) = some (s, rest) := by
  induction s with
  | nil =>
    show parseStrAux (qt :: rest) = _
    rw [parseStrAux, if_pos rfl]
  | cons c cs ih =>
    have h : escapeStr (c :: cs) = escapeChar c ++ escapeStr cs := by
      simp [escapeStr]
    rw [h, List.append_assoc, parseStrAux_escapeChar, ih]
    rfl

def strLit (s : String) : List Char := qt :: (escapeStr s.data ++ [qt])

def parseJString (input : List Char) : Option (String × List Char) :=
  match input with
  | [] => none
  | c :: rest =>
    if c = qt then (parseStrAux rest).map (fun p => (String.mk p.1, p.2)) else none

theorem parseJString_strLit (s : String) (rest : List Char) :
    parseJString (strLit s ++ rest) = some (s, rest) := by
  rw [strLit, List.cons_append, List.append_assoc, parseJString, if_pos rfl]
  show (parseStrAux (escapeStr s.data ++ (qt :: rest))).map _ = _
  rw [parseStrAux_escapeStr]
  rfl

/-! The two fixed JSON document schemas of the wire protocol, exactly as
produced by JSON.stringify on the object literals built by the client
(src/src/client/index.ts, generatePayment and generateBalanceProof) and as
consumed, typed, by JSON.parse on the server.  Property order is the
object-literal insertion order of the source.  Following section 4.2 of the
spec, decoding is modelled as a checked parse of this schema that fails,
rather than raising, on content that does not fit it. -/

structure PayloadBody where
  noteHash : String
  commitment : String
  timestamp : Int
  balanceProof : String
deriving DecidableEq

structure PaymentPayload where
  x402Version : Int
  scheme : String
  network : String
  payload : PayloadBody
deriving DecidableEq

structure BalanceProof where
  balance : Int
  timestamp : Int
  wallet : String
deriving DecidableEq

/-- Literal JSON frame: open brace, key x402Version -/
def jf1 : List Char := [Char.ofNat 123, Char.ofNat 34, Char.ofNat 120, Char.ofNat 52, Char.ofNat 48, Char.ofNat 50, Char.ofNat 86, Char.ofNat 101, Char.ofNat 114, Char.ofNat 115, Char.ofNat 105, Char.ofNat 111, Char.ofNat 110, Char.ofNat 34, Char.ofNat 58]

/-- Literal JSON frame: key scheme -/
def jf2 : List Char := [Char.ofNat 44, Char.ofNat 34, Char.ofNat 115, Char.ofNat 99, Char.ofNat 104, Char.ofNat 101, Char.ofNat 109, Char.ofNat 101, Char.ofNat 34, Char.ofNat 58]

/-- Literal JSON frame: key network -/
def jf3 : List Char := [Char.ofNat 44, Char.ofNat 34, Char.ofNat 110, Char.ofNat 101, Char.ofNat 116, Char.ofNat 119, Char.ofNat 111, Char.ofNat 114, Char.ofNat 107, Char.ofNat 34, Char.ofNat 58]

/-- Literal JSON frame: key payload, open brace, key noteHash -/
def jf4 : List Char := [Char.ofNat 44, Char.ofNat 34, Char.ofNat 112, Char.ofNat 97, Char.ofNat 121, Char.ofNat 108, Char.ofNat 111, Char.ofNat 97, Char.ofNat 100, Char.ofNat 34, Char.ofNat 58, Char.ofNat 123, Char.ofNat 34, Char.ofNat 110, Char.ofNat 111, Char.ofNat 116, Char.ofNat 101, Char.ofNat 72, Char.ofNat 97, Char.ofNat 115, Char.ofNat 104, Char.ofNat 34, Char.ofNat 58]

/-- Literal JSON frame: key commitment -/
def jf5 : List Char := [Char.ofNat 44, Char.ofNat 34, Char.ofNat 99, Char.ofNat 111, Char.ofNat 109, Char.ofNat 109, Char.ofNat 105, Char.ofNat 116, Char.ofNat 109, Char.ofNat 101, Char.ofNat 110, Char.ofNat 116, Char.ofNat 34, Char.ofNat 58]

/-- Literal JSON frame: key timestamp -/
def jf6 : List Char := [Char.ofNat 44, Char.ofNat 34, Char.ofNat 116, Char.ofNat 105, Char.ofNat 109, Char.ofNat 101, Char.ofNat 115, Char.ofNat 116, Char.ofNat 97, Char.ofNat 109, Char.ofNat 112, Char.ofNat 34, Char.ofNat 58]

/-- Literal JSON frame: key balanceProof -/
def jf7 : List Char := [Char.ofNat 44, Char.ofNat 34, Char.ofNat 98, Char.ofNat 97, Char.ofNat 108, Char.ofNat 97, Char.ofNat 110, Char.ofNat 99, Char.ofNat 101, Char.ofNat 80, Char.ofNat 114, Char.ofNat 111, Char.ofNat 111, Char.ofNat 102, Char.ofNat 34, Char.ofNat 58]

/-- Literal JSON frame: two closing braces -/
def jf8 : List Char := [Char.ofNat 125, Char.ofNat 125]

/-- Literal JSON frame: open brace, key balance -/
def bf1 : List Char := [Char.ofNat 123, Char.ofNat 34, Char.ofNat 98, Char.ofNat 97, Char.ofNat 108, Char.ofNat 97, Char.ofNat 110, Char.ofNat 99, Char.ofNat 101, Char.ofNat 34, Char.ofNat 58]

/-- Literal JSON frame: key timestamp -/
def bf2 : List Char := [Char.ofNat 44, Char.ofNat 34, Char.ofNat 116, Char.ofNat 105, Char.ofNat 109, Char.ofNat 101, Char.ofNat 115, Char.ofNat 116, Char.ofNat 97, Char.ofNat 109, Char.ofNat 112, Char.ofNat 34, Char.ofNat 58]

/-- Literal JSON frame: key wallet -/
def bf3 : List Char := [Char.ofNat 44, Char.ofNat 34, Char.ofNat 119, Char.ofNat 97, Char.ofNat 108, Char.ofNat 108, Char.ofNat 101, Char.ofNat 116, Char.ofNat 34, Char.ofNat 58]

/-- Literal JSON frame: closing brace -/
def bf4 : List Char := [Char.ofNat 125]

def expectLit : List Char → List Char → Option (List Char)
  | [], input => some input
  | _ :: _, [] => none
  | l :: ls, c :: cs => if c = l then expectLit ls cs else none

theorem expectLit_append (l rest : List Char) : expectLit l (l ++ rest) = some rest := by
  induction l with
  | nil => rfl
  | cons x xs ih => rw [List.cons_append, expectLit, if_pos rfl, ih]

def stringifyPayload (p : PaymentPayload) : List Char :=
  jf1 ++ intToChars p.x402Version ++ jf2 ++ strLit p.scheme ++ jf3 ++ strLit p.network ++
  jf4 ++ strLit p.payload.noteHash ++ jf5 ++ strLit p.payload.commitment ++
  jf6 ++ intToChars p.payload.timestamp ++ jf7 ++ strLit p.payload.balanceProof ++ jf8

def parsePayloadChars (input : List Char) : Option PaymentPayload := do
  let r1 ← expectLit jf1 input
  let (ver, r2) ← parseInt r1
  let r3 ← expectLit jf2 r2
  let (scheme, r4) ← parseJString r3
  let r5 ← expectLit jf3 r4
  let (network, r6) ← parseJString r5
  let r7 ← expectLit jf4 r6
  let (noteHash, r8) ← parseJString r7
  let r9 ← expectLit jf5 r8
  let (commitment, r10) ← parseJString r9
  let r11 ← expectLit jf6 r10
  let (ts, r12) ← parseInt r11
  let r13 ← expectLit jf7 r12
  let (bp, r14) ← parseJString r13
  let r15 ← expectLit jf8 r14
  if r15 = [] then some ⟨ver, scheme, network, ⟨noteHash, commitment, ts, bp⟩⟩ else none

def stringifyBalanceProof (b : BalanceProof) : List Char :=
  bf1 ++ intToChars b.balance ++ bf2 ++ intToChars b.timestamp ++ bf3 ++ strLit b.wallet ++ bf4

def parseBalanceProofChars (input : List Char) : Option BalanceProof := do
  let r1 ← expectLit bf1 input
  let (bal, r2) ← parseInt r1
  let r3 ← expectLit bf2 r2
  let (ts, r4) ← parseInt r3
  let r5 ← expectLit bf3 r4
  let (wallet, r6) ← parseJString r5
  let r7 ← expectLit bf4 r6
  if r7 = [] then some ⟨bal, ts, wallet⟩ else none

theorem expectLit_self (l : List Char) : expectLit l l = some [] := by
  have h := expectLit_append l []
  rwa [List.append_nil] at h

theorem parseInt_jf2 (n : Int) (X : List Char) :
    parseInt (intToChars n ++ (jf2 ++ X)) = some (n, jf2 ++ X) :=
  parseInt_append n _ (Or.inr ⟨Char.ofNat 44, jf2.tail ++ X, rfl, by decide⟩)

theorem parseInt_jf7 (n : Int) (X : List Char) :
    parseInt (intToChars n ++ (jf7 ++ X)) = some (n, jf7 ++ X) :=
  parseInt_append n _ (Or.inr ⟨Char.ofNat 44, jf7.tail ++ X, rfl, by decide⟩)

theorem parseInt_bf2 (n : Int) (X : List Char) :
    parseInt (intToChars n ++ (bf2 ++ X)) = some (n, bf2 ++ X) :=
  parseInt_append n _ (Or.inr ⟨Char.ofNat 44, bf2.tail ++ X, rfl, by decide⟩)

theorem parseInt_bf3 (n : Int) (X : List Char) :
    parseInt (intToChars n ++ (bf3 ++ X)) = some (n, bf3 ++ X) :=
  parseInt_append n _ (Or.inr ⟨Char.ofNat 44, bf3.tail ++ X, rfl, by decide⟩)

theorem parseBalanceProofChars_stringify (b : BalanceProof) :
    parseBalanceProofChars (stringifyBalanceProof b) = some b := by
  rw [stringifyBalanceProof, parseBalanceProofChars]
  simp only [List.append_assoc, Option.bind_eq_bind, Option.some_bind,
    expectLit_append, expectLit_self, parseInt_bf2, parseInt_bf3,
    parseJString_strLit, if_true]

theorem parsePayloadChars_stringify (p : PaymentPayload) :
    parsePayloadChars (stringifyPayload p) = some p := by
  rw [stringifyPayload, parsePayloadChars]
  simp only [List.append_assoc, Option.bind_eq_bind]
  rw [expectLit_append, Option.some_bind]
  rw [parseInt_jf2, Option.some_bind]
  rw [expectLit_append, Option.some_bind]
  rw [parseJString_strLit, Option.some_bind]
  rw [expectLit_append, Option.some_bind]
  rw [parseJString_strLit, Option.some_bind]
  rw [expectLit_append, Option.some_bind]
  rw [parseJString_strLit, Option.some_bind]
  rw [expectLit_append, Option.some_bind]
  rw [parseJString_strLit, Option.some_bind]
  rw [expectLit_append, Option.some_bind]
  rw [parseInt_jf7, Option.some_bind]
  rw [expectLit_append, Option.some_bind]
  rw [parseJString_strLit, Option.some_bind]
  rw [expectLit_self, Option.some_bind]
  rfl

/-! UTF-8: the byte encoding applied by Buffer.from(string, utf8) before
base64, and its inverse.  Characters are Unicode scalar values (well-formed
JS strings); the encoder is the standard one to four byte UTF-8 encoding. -/

def utf8EncodeChar (c : Char) : List Nat :=
  if c.toNat < 128 then [c.toNat]
  else if c.toNat < 2048 then [192 + c.toNat / 64, 128 + c.toNat % 64]
  else if c.toNat < 65536 then
    [224 + c.toNat / 4096, 128 + (c.toNat / 64) % 64, 128 + c.toNat % 64]
  else
    [240 + c.toNat / 262144, 128 + (c.toNat / 4096) % 64,
      128 + (c.toNat / 64) % 64, 128 + c.toNat % 64]

def utf8Encode (l : List Char) : List Nat := (l.map utf8EncodeChar).flatten

mutual

def utf8Decode : List Nat → Option (List Char)
  | [] => some []
  | b1 :: rest =>
    if b1 < 128 then (utf8Decode rest).map (fun cs => Char.ofNat b1 :: cs)
    else if b1 < 224 then utf8Cont1 b1 rest
    else if b1 < 240 then utf8Cont2 b1 rest
    else utf8Cont3 b1 rest

def utf8Cont1 : Nat → List Nat → Option (List Char)
  | b1, b2 :: rest2 =>
    (utf8Decode rest2).map (fun cs => Char.ofNat ((b1 - 192) * 64 + (b2 - 128)) :: cs)
  | _, [] => none

def utf8Cont2 : Nat → List Nat → Option (List Char)
  | b1, b2 :: b3 :: rest3 =>
    (utf8Decode rest3).map
      (fun cs => Char.ofNat ((b1 - 224) * 4096 + (b2 - 128) * 64 + (b3 - 128)) :: cs)
  | _, _ => none

def utf8Cont3 : Nat → List Nat → Option (List Char)
  | b1, b2 :: b3 :: b4 :: rest4 =>
    (utf8Decode rest4).map
      (fun cs =>
        Char.ofNat ((b1 - 240) * 262144 + (b2 - 128) * 4096 + (b3 - 128) * 64 + (b4 - 128)) :: cs)
  | _, _ => none

end

theorem utf8Decode_encodeChar (c : Char) (rest : List Nat) :
    utf8Decode (utf8EncodeChar c ++ rest) = (utf8Decode rest).map (fun cs => c :: cs) := by
  rw [utf8EncodeChar]
  by_cases h1 : c.toNat < 128
  · rw [if_pos h1]
    show utf8Decode (c.toNat :: rest) = _
    rw [utf8Decode, if_pos h1, Char.ofNat_toNat]
  · rw [if_neg h1]
    by_cases h2 : c.toNat < 2048
    · rw [if_pos h2]
      show utf8Decode ((192 + c.toNat / 64) :: ((128 + c.toNat % 64) :: rest)) = _
      rw [utf8Decode, if_neg (by omega), if_pos (by omega), utf8Cont1]
      rw [show (192 + c.toNat / 64 - 192) * 64 + (128 + c.toNat % 64 - 128) = c.toNat from by
        omega]
      rw [Char.ofNat_toNat]
    · rw [if_neg h2]
      by_cases h3 : c.toNat < 65536
      · rw [if_pos h3]
        show utf8Decode ((224 + c.toNat / 4096) :: ((128 + (c.toNat / 64) % 64) ::
          ((128 + c.toNat % 64) :: rest))) = _
        rw [utf8Decode, if_neg (by omega), if_neg (by omega), if_pos (by omega), utf8Cont2]
        rw [show (224 + c.toNat / 4096 - 224) * 4096 + (128 + (c.toNat / 64) % 64 - 128) * 64 +
          (128 + c.toNat % 64 - 128) = c.toNat from by omega]
        rw [Char.ofNat_toNat]
      · rw [if_neg h3]
        show utf8Decode ((240 + c.toNat / 262144) :: ((128 + (c.toNat / 4096) % 64) ::
          ((128 + (c.toNat / 64) % 64) :: ((128 + c.toNat % 64) :: rest)))) = _
        rw [utf8Decode, if_neg (by omega), if_neg (by omega), if_neg (by omega), utf8Cont3]
        rw [show (240 + c.toNat / 262144 - 240) * 262144 + (128 + (c.toNat / 4096) % 64 - 128) *
          4096 + (128 + (c.toNat / 64) % 64 - 128) * 64 + (128 + c.toNat % 64 - 128) = c.toNat
          from by omega]
        rw [Char.ofNat_toNat]

theorem utf8Decode_encode (l : List Char) : utf8Decode (utf8Encode l) = some l := by
  induction l with
  | nil =>
    show utf8Decode [] = some []
    rw [utf8Decode]
  | cons c cs ih =>
    have h : utf8Encode (c :: cs) = utf8EncodeChar c ++ utf8Encode cs := by
      simp [utf8Encode]
    rw [h, utf8Decode_encodeChar, ih]
    rfl

theorem char_toNat_lt (c : Char) : c.toNat < 1114112 := by
  have hv : c.toNat < 55296 ∨ (57343 < c.toNat ∧ c.toNat < 1114112) := c.valid
  omega

theorem utf8EncodeChar_lt_256 (c : Char) : ∀ b ∈ utf8EncodeChar c, b < 256 := by
  have hv := char_toNat_lt c
  rw [utf8EncodeChar]
  by_cases h1 : c.toNat < 128
  · rw [if_pos h1]
    intro b hb
    simp at hb
    omega
  · rw [if_neg h1]
    by_cases h2 : c.toNat < 2048
    · rw [if_pos h2]
      intro b hb
      simp at hb
      rcases hb with rfl | rfl <;> omega
    · rw [if_neg h2]
      by_cases h3 : c.toNat < 65536
      · rw [if_pos h3]
        intro b hb
        simp at hb
        rcases hb with rfl | rfl | rfl <;> omega
      · rw [if_neg h3]
        intro b hb
        simp at hb
        rcases hb with rfl | rfl | rfl | rfl <;> omega

theorem utf8Encode_lt_256 (l : List Char) : ∀ b ∈ utf8Encode l, b < 256 := by
  intro b hb
  rw [utf8Encode] at hb
  simp only [List.mem_flatten, List.mem_map] at hb
  obtain ⟨bs, ⟨c, _, rfl⟩, hbbs⟩ := hb
  exact utf8EncodeChar_lt_256 c b hbbs


/-! Base64: the encoding applied by Buffer.prototype.toString with the
base64 argument (standard alphabet, padded), and a canonical-form decoder
inverting it, modelling Buffer.from(string, base64). -/

def b64Char (n : Nat) : Char :=
  if n < 26 then Char.ofNat (65 + n)
  else if n < 52 then Char.ofNat (97 + (n - 26))
  else if n < 62 then Char.ofNat (48 + (n - 52))
  else if n = 62 then Char.ofNat 43
  else Char.ofNat 47

def b64Val (c : Char) : Option Nat :=
  if 65 ≤ c.toNat ∧ c.toNat ≤ 90 then some (c.toNat - 65)
  else if 97 ≤ c.toNat ∧ c.toNat ≤ 122 then some (c.toNat - 97 + 26)
  else if 48 ≤ c.toNat ∧ c.toNat ≤ 57 then some (c.toNat - 48 + 52)
  else if c.toNat = 43 then some 62
  else if c.toNat = 47 then some 63
  else none

theorem b64Val_b64Char : ∀ n < 64, b64Val (b64Char n) = some n := by decide

theorem b64Char_ne_pad : ∀ n < 64, ¬(b64Char n = Char.ofNat 61) := by decide

def base64Encode : List Nat → List Char
  | [] => []
  | [a] => [b64Char (a / 4), b64Char (a % 4 * 16), Char.ofNat 61, Char.ofNat 61]
  | [a, b] =>
    [b64Char (a / 4), b64Char (a % 4 * 16 + b / 16), b64Char (b % 16 * 4), Char.ofNat 61]
  | a :: b :: c :: rest =>
    b64Char (a / 4) :: b64Char (a % 4 * 16 + b / 16) :: b64Char (b % 16 * 4 + c / 64) ::
      b64Char (c % 64) :: base64Encode rest

def base64Decode : List Char → Option (List Nat)
  | [] => some []
  | c1 :: c2 :: c3 :: c4 :: rest =>
    match b64Val c1, b64Val c2 with
    | some v1, some v2 =>
      if c3 = Char.ofNat 61 then
        if c4 = Char.ofNat 61 ∧ rest = [] then some [v1 * 4 + v2 / 16] else none
      else
        match b64Val c3 with
        | some v3 =>
          if c4 = Char.ofNat 61 then
            if rest = [] then some [v1 * 4 + v2 / 16, v2 % 16 * 16 + v3 / 4] else none
          else
            match b64Val c4 with
            | some v4 =>
              (base64Decode rest).map
                (fun bs => (v1 * 4 + v2 / 16) :: ((v2 % 16 * 16 + v3 / 4) ::
                  ((v3 % 4 * 64 + v4) :: bs)))
            | none => none
        | none => none
    | _, _ => none
  | _ => none

theorem base64Decode_encode (l : List Nat) (h : ∀ b ∈ l, b < 256) :
    base64Decode (base64Encode l) = some l := by
  induction l using base64Encode.induct with
  | case1 =>
    rw [base64Encode, base64Decode]
  | case2 a =>
    have ha : a < 256 := h a (by simp)
    rw [base64Encode, base64Decode]
    rw [b64Val_b64Char (a / 4) (by omega), b64Val_b64Char (a % 4 * 16) (by omega)]
    simp only [if_pos rfl,
      if_pos (show Char.ofNat 61 = Char.ofNat 61 ∧ ([] : List Char) = [] from ⟨rfl, rfl⟩),
      if_true, and_self]
    rw [show a / 4 * 4 + a % 4 * 16 / 16 = a from by omega]
  | case3 a b =>
    have ha : a < 256 := h a (by simp)
    have hb : b < 256 := h b (by simp)
    rw [base64Encode, base64Decode]
    rw [b64Val_b64Char (a / 4) (by omega), b64Val_b64Char (a % 4 * 16 + b / 16) (by omega),
      b64Val_b64Char (b % 16 * 4) (by omega)]
    simp only [if_neg (b64Char_ne_pad (b % 16 * 4) (by omega)), if_pos rfl, if_true, and_self]
    rw [show a / 4 * 4 + (a % 4 * 16 + b / 16) / 16 = a from by omega,
      show (a % 4 * 16 + b / 16) % 16 * 16 + b % 16 * 4 / 4 = b from by omega]
  | case4 a b c rest ih =>
    have ha : a < 256 := h a (by simp)
    have hb : b < 256 := h b (by simp)
    have hc : c < 256 := h c (by simp)
    rw [base64Encode, base64Decode]
    rw [b64Val_b64Char (a / 4) (by omega), b64Val_b64Char (a % 4 * 16 + b / 16) (by omega),
      b64Val_b64Char (b % 16 * 4 + c / 64) (by omega), b64Val_b64Char (c % 64) (by omega)]
    simp only [if_neg (b64Char_ne_pad (b % 16 * 4 + c / 64) (by omega)),
      if_neg (b64Char_ne_pad (c % 64) (by omega))]
    rw [ih (fun x hx => h x (by simp [hx]))]
    rw [show a / 4 * 4 + (a % 4 * 16 + b / 16) / 16 = a from by omega,
      show (a % 4 * 16 + b / 16) % 16 * 16 + (b % 16 * 4 + c / 64) / 4 = b from by omega,
      show (b % 16 * 4 + c / 64) % 4 * 64 + c % 64 = c from by omega]
    rfl


/-! Full transport codec.  encodePayload models the client side
(src/src/client/index.ts line 171): base64 of the UTF-8 bytes of the JSON
serialization.  decodePayload is the schema-conforming restriction of the
server side (src/src/server/index.ts line 141, a bare JSON.parse cast to
the PaymentPayload type): it succeeds exactly on documents of the client
schema and fails otherwise, which is the checked decode of spec sections
4.2 and 4.3.  The source performs no runtime validation, so on valid JSON
that violates the schema it behaves differently; that lenient behavior is
modelled separately below (jsonParseBlob, verifyBalanceJS,
verifyPaymentJS) and is the subject of the C4 and C6 code-bug theorems. -/

def encodePayload (p : PaymentPayload) : String :=
  String.mk (base64Encode (utf8Encode (stringifyPayload p)))

def decodePayload (s : String) : Option PaymentPayload :=
  (base64Decode s.data).bind (fun bytes => (utf8Decode bytes).bind
    (fun chars => parsePayloadChars chars))

def encodeBalanceProofBlob (b : BalanceProof) : String :=
  String.mk (base64Encode (utf8Encode (stringifyBalanceProof b)))

def decodeBalanceProofBlob (s : String) : Option BalanceProof :=
  (base64Decode s.data).bind (fun bytes => (utf8Decode bytes).bind
    (fun chars => parseBalanceProofChars chars))

theorem decode_encodePayload (p : PaymentPayload) :
    decodePayload (encodePayload p) = some p := by
  rw [encodePayload, decodePayload]
  rw [show (String.mk (base64Encode (utf8Encode (stringifyPayload p)))).data =
    base64Encode (utf8Encode (stringifyPayload p)) from rfl]
  rw [base64Decode_encode _ (utf8Encode_lt_256 _), Option.some_bind,
    utf8Decode_encode, Option.some_bind, parsePayloadChars_stringify]

theorem decode_encodeBalanceProofBlob (b : BalanceProof) :
    decodeBalanceProofBlob (encodeBalanceProofBlob b) = some b := by
  rw [encodeBalanceProofBlob, decodeBalanceProofBlob]
  rw [show (String.mk (base64Encode (utf8Encode (stringifyBalanceProof b)))).data =
    base64Encode (utf8Encode (stringifyBalanceProof b)) from rfl]
  rw [base64Decode_encode _ (utf8Encode_lt_256 _), Option.some_bind,
    utf8Decode_encode, Option.some_bind, parseBalanceProofChars_stringify]

/-! The X402PaymentServer model (src/src/server/index.ts).  Mutable fields
usedCommitments (a JS Set of strings) and pendingPayments (a JS Map keyed
by commitment) become an explicit state record threaded through the
operations.  The sha256-hex commitment hash (hashNote, line 227) is kept
as an uninterpreted function parameter: its implementation is the Node
crypto library, outside this repository, and no claim depends on its
internals.  Clock reads (Date.now) and the balance-proof validity constant
(imported from a utils module) are likewise parameters. -/

structure PendingPayment where
  commitment : String
  amount : Int
  userWallet : String
  timestamp : Int
  verified : Bool
deriving DecidableEq

structure ServerState where
  usedCommitments : List String
  pendingPayments : List PendingPayment
deriving DecidableEq

/-- Fresh server instance: both containers empty (lines 31 and 32). -/
def initState : ServerState := ⟨[], []⟩

/-- JS Set.add: inserts only when absent, preserving insertion order. -/
def setAdd (l : List String) (c : String) : List String :=
  if c ∈ l then l else l ++ [c]

/-- JS Map.set keyed by the commitment field: overwrites in place or
appends.  The server only ever calls it with key equal to the stored
record commitment, so the key is taken from the record. -/
def mapSet (l : List PendingPayment) (p : PendingPayment) : List PendingPayment :=
  if l.any (fun q => q.commitment = p.commitment) then
    l.map (fun q => if q.commitment = p.commitment then p else q)
  else l ++ [p]

/-- JS Map.delete keyed by commitment. -/
def mapDelete (l : List PendingPayment) (c : String) : List PendingPayment :=
  l.filter (fun q => ¬(q.commitment = c))

/-- Server configuration (X402ServerConfig): the network tag is the one the
constructor derives from the rpcUrl (line 41), stored already derived. -/
structure X402ServerConfig where
  merchantWallet : String
  apiPrice : Int
  network : String
deriving DecidableEq

/-- The rejection taxonomy of src/src/errors (X402Error subclasses), plus
the success outcome.  verifyPayment throws these; the model returns them. -/
inductive VerifyResult where
  | ok : VerifyResult
  | invalidPayment (reason : String) : VerifyResult
  | networkMismatch (expected received : String) : VerifyResult
  | doubleSpend (commitment : String) : VerifyResult
  | insufficientBalance (required : Int) : VerifyResult
deriving DecidableEq

/-- verifyBalance (lines 198 to 222) on schema-conforming blobs: decode
the base64 JSON blob; reject stale proofs, then insufficient balances;
accept otherwise.  Decode failure is caught and returns false.  Date.now()
and BALANCE_PROOF_VALIDITY_MS enter as the now and validityWindowMs
parameters, following the contract of spec section 4.3.  On valid JSON
that is not a full BalanceProof record the source diverges from this
checked decode (see verifyBalanceJS below and the C4 code bug). -/
def verifyBalance (balanceProof : String) (required : Int) (now : Int)
    (validityWindowMs : Int) : Bool :=
  match decodeBalanceProofBlob balanceProof with
  | none => false
  | some proof =>
    if now - proof.timestamp > validityWindowMs then false
    else if proof.balance < required then false
    else true

/-- The network tag the server compares against (line 152). -/
def expectedNetwork (cfg : X402ServerConfig) : String := "solana-" ++ cfg.network

/-- verifyPayment (lines 133 to 192).  Checks in source order: decode,
scheme, network, header presence, hash binding, double spend, balance;
then markUsed and enqueue.  A thrown error leaves the instance fields
untouched, so each rejection returns the input state.  JS truthiness of
the header test (line 158) makes an empty string count as missing. -/
def verifyPayment (hashNote : String → String) (cfg : X402ServerConfig)
    (now validityWindowMs : Int) (st : ServerState)
    (xPaymentHeader : String) (commitment walletAddress : Option String) :
    VerifyResult × ServerState :=
  match decodePayload xPaymentHeader with
  | none => (.invalidPayment "Invalid X-Payment header encoding", st)
  | some decoded =>
    if decoded.scheme ≠ "privacycash" then
      (.invalidPayment ("Invalid payment scheme: " ++ decoded.scheme), st)
    else if decoded.network ≠ expectedNetwork cfg then
      (.networkMismatch (expectedNetwork cfg) decoded.network, st)
    else
      match commitment, walletAddress with
      | some c, some w =>
        if c = "" ∨ w = "" then
          (.invalidPayment "Missing X-Privacy-Commitment or X-Wallet-Address header", st)
        else if hashNote c ≠ decoded.payload.noteHash then
          (.invalidPayment "Commitment hash mismatch", st)
        else if c ∈ st.usedCommitments then
          (.doubleSpend c, st)
        else if ¬(verifyBalance decoded.payload.balanceProof cfg.apiPrice now
            validityWindowMs) then
          (.insufficientBalance cfg.apiPrice, st)
        else
          (.ok,
            { usedCommitments := setAdd st.usedCommitments c,
              pendingPayments := mapSet st.pendingPayments
                ⟨c, cfg.apiPrice, w, now, true⟩ })
      | _, _ => (.invalidPayment "Missing X-Privacy-Commitment or X-Wallet-Address header", st)


/-! The quote, the serialized error bodies, and the middleware
request-interception contract. -/

structure PaymentQuoteInfo where
  recipientWallet : String
  tokenSymbol : String
  amount : Int
  cluster : String
deriving DecidableEq

structure PaymentQuote where
  payment : PaymentQuoteInfo
  message : String
  instructions : List String
deriving DecidableEq

/-- generateQuote (lines 112 to 128). -/
def generateQuote (cfg : X402ServerConfig) : PaymentQuote :=
  { payment :=
      { recipientWallet := cfg.merchantWallet, tokenSymbol := "SOL",
        amount := cfg.apiPrice, cluster := cfg.network },
    message := "Payment required. Deposit into Privacy Cash pool and provide payment proof.",
    instructions :=
      ["1. Deposit SOL into Privacy Cash pool",
       "2. Generate payment commitment",
       "3. Send X-Payment header with proof",
       "4. Include X-Privacy-Commitment and X-Wallet-Address headers"] }

/-- A JSON scalar of the serialized error bodies. -/
inductive JVal where
  | s (v : String) : JVal
  | n (v : Int) : JVal
deriving DecidableEq

/-- statusCode carried by each X402Error subclass (src/src/errors). -/
def errorStatusCode : VerifyResult → Int
  | .ok => 200
  | .invalidPayment _ => 400
  | .networkMismatch _ _ => 400
  | .doubleSpend _ => 402
  | .insufficientBalance _ => 402

/-- toJSON of each X402Error subclass (src/src/errors): the base class
contributes error, code and statusCode; subclasses append their extra
fields.  NetworkMismatchError does not override toJSON, so its body is
the base three fields, with both values inside the message string. -/
def errorToJSON : VerifyResult → List (String × JVal)
  | .ok => []
  | .invalidPayment reason =>
    [("error", .s ("Invalid payment: " ++ reason)),
     ("code", .s "INVALID_PAYMENT"), ("statusCode", .n 400),
     ("reason", .s reason)]
  | .networkMismatch expected received =>
    [("error", .s ("Network mismatch. Expected: " ++ expected ++ ", Received: " ++ received)),
     ("code", .s "NETWORK_MISMATCH"), ("statusCode", .n 400)]
  | .doubleSpend c =>
    [("error", .s "Commitment already used. This payment has already been redeemed."),
     ("code", .s "DOUBLE_SPEND"), ("statusCode", .n 402),
     ("commitment", .s (String.take c 20 ++ "...")),
     ("hint", .s "Generate a new payment commitment")]
  | .insufficientBalance required =>
    [("error", .s ("Insufficient private balance. Required: " ++ toString required ++
        " lamports, Available: 0 lamports")),
     ("code", .s "INSUFFICIENT_BALANCE"), ("statusCode", .n 402),
     ("required", .n required), ("available", .n 0),
     ("hint", .s "Please deposit more SOL into Privacy Cash pool")]

/-- Outcome of one middleware invocation (lines 78 to 107): a 402 quote
when no payment header is given, next() on success, or a rejection with
the status code and serialized body of the thrown X402Error. -/
inductive MiddlewareResult where
  | quote (statusCode : Int) (q : PaymentQuote) : MiddlewareResult
  | proceed : MiddlewareResult
  | reject (statusCode : Int) (body : List (String × JVal)) : MiddlewareResult
deriving DecidableEq

/-- middleware (lines 78 to 107).  JS truthiness again: an empty
X-Payment header also yields the quote. -/
def middleware (hashNote : String → String) (cfg : X402ServerConfig)
    (now validityWindowMs : Int) (st : ServerState)
    (xPaymentHeader commitment walletAddress : Option String) :
    MiddlewareResult × ServerState :=
  match xPaymentHeader with
  | none => (.quote 402 (generateQuote cfg), st)
  | some h =>
    if h = "" then (.quote 402 (generateQuote cfg), st)
    else
      let r := verifyPayment hashNote cfg now validityWindowMs st h commitment walletAddress
      match r.1 with
      | .ok => (.proceed, r.2)
      | e => (.reject (errorStatusCode e) (errorToJSON e), r.2)

/-! SettlementScheduler and stats. -/

/-- One withdraw call issued to the Privacy Pool Provider
(merchantClient.withdraw, lines 271 to 274). -/
structure WithdrawCall where
  lamports : Int
  recipientAddress : String
deriving DecidableEq

/-- The reduce((sum, p) => sum + p.amount, 0) of lines 267 and 300. -/
def pendingSum (l : List PendingPayment) : Int := l.foldl (fun s p => s + p.amount) 0

/-- processMerchantWithdrawals (lines 244 to 286).  The two external
effects are parameters: whether a merchant client was initialized, and
whether the single withdraw call succeeds.  The returned list holds the
withdraw calls issued during the tick.  The catch block swallows a
failure, leaving the state untouched, so the function is total: the
scheduler loop cannot crash. -/
def processMerchantWithdrawals (cfg : X402ServerConfig) (hasMerchantClient : Bool)
    (withdrawSucceeds : Bool) (st : ServerState) : ServerState × List WithdrawCall :=
  let paymentsToProcess := st.pendingPayments.filter (fun p => p.verified)
  if paymentsToProcess.isEmpty then (st, [])
  else if ¬hasMerchantClient then
    ({ st with pendingPayments :=
        paymentsToProcess.foldl (fun l p => mapDelete l p.commitment) st.pendingPayments }, [])
  else
    let total := pendingSum paymentsToProcess
    if withdrawSucceeds then
      ({ st with pendingPayments :=
          paymentsToProcess.foldl (fun l p => mapDelete l p.commitment) st.pendingPayments },
        [⟨total, cfg.merchantWallet⟩])
    else (st, [⟨total, cfg.merchantWallet⟩])

structure ServerStats where
  usedCommitments : Nat
  pendingPayments : Nat
  totalPendingAmount : Rat
deriving DecidableEq

/-- getStats (lines 291 to 303).  The totalPendingAmount the source
returns is the pending sum divided by 1e9; the division is modelled
exactly, over the rationals. -/
def getStats (st : ServerState) : ServerStats :=
  { usedCommitments := st.usedCommitments.length,
    pendingPayments := st.pendingPayments.length,
    totalPendingAmount := ((pendingSum st.pendingPayments : Rat) / 1000000000) }


/-! Helper lemmas about the ledger containers and a case analysis of
verifyPayment: every call either rejects and leaves the state untouched,
or succeeds with all checks passed and performs exactly the markUsed and
enqueue mutations. -/

theorem mem_setAdd_self (l : List String) (c : String) : c ∈ setAdd l c := by
  rw [setAdd]
  split
  · assumption
  · simp

theorem mem_setAdd_of_mem (l : List String) (c x : String) (h : x ∈ l) :
    x ∈ setAdd l c := by
  rw [setAdd]
  split
  · exact h
  · simp [h]

theorem mem_setAdd_iff (l : List String) (c x : String) :
    x ∈ setAdd l c ↔ x ∈ l ∨ x = c := by
  rw [setAdd]
  split
  · constructor
    · exact fun h => Or.inl h
    · rintro (h | rfl) <;> assumption
  · simp

theorem verifyPayment_cases (hashNote : String → String) (cfg : X402ServerConfig)
    (now v : Int) (st : ServerState) (h : String) (c? w? : Option String) :
    ((verifyPayment hashNote cfg now v st h c? w?).1 ≠ .ok ∧
      (verifyPayment hashNote cfg now v st h c? w?).2 = st) ∨
    (∃ c w d, c? = some c ∧ w? = some w ∧ decodePayload h = some d ∧
      d.scheme = "privacycash" ∧ d.network = expectedNetwork cfg ∧
      ¬(c = "") ∧ ¬(w = "") ∧ hashNote c = d.payload.noteHash ∧
      ¬(c ∈ st.usedCommitments) ∧
      verifyBalance d.payload.balanceProof cfg.apiPrice now v = true ∧
      (verifyPayment hashNote cfg now v st h c? w?).1 = .ok ∧
      (verifyPayment hashNote cfg now v st h c? w?).2 =
        ⟨setAdd st.usedCommitments c,
          mapSet st.pendingPayments ⟨c, cfg.apiPrice, w, now, true⟩⟩) := by
  unfold verifyPayment
  cases hdec : decodePayload h with
  | none => exact Or.inl ⟨by simp, rfl⟩
  | some d =>
    cases c? with
    | none =>
      cases w? with
      | none =>
        exact Or.inl ⟨by simp only [ne_eq]; split_ifs <;> simp,
          by simp only [ne_eq]; split_ifs <;> rfl⟩
      | some w =>
        exact Or.inl ⟨by simp only [ne_eq]; split_ifs <;> simp,
          by simp only [ne_eq]; split_ifs <;> rfl⟩
    | some c =>
      cases w? with
      | none =>
        exact Or.inl ⟨by simp only [ne_eq]; split_ifs <;> simp,
          by simp only [ne_eq]; split_ifs <;> rfl⟩
      | some w =>
        by_cases h1 : d.scheme = "privacycash"
        case neg => exact Or.inl ⟨by simp [h1], by simp [h1]⟩
        by_cases h2 : d.network = expectedNetwork cfg
        case neg => exact Or.inl ⟨by simp [h1, h2], by simp [h1, h2]⟩
        by_cases h3 : c = "" ∨ w = ""
        case pos => exact Or.inl ⟨by simp [h1, h2, h3], by simp [h1, h2, h3]⟩
        by_cases h4 : hashNote c = d.payload.noteHash
        case neg => exact Or.inl ⟨by simp [h1, h2, h3, h4], by simp [h1, h2, h3, h4]⟩
        by_cases h5 : c ∈ st.usedCommitments
        case pos => exact Or.inl ⟨by simp [h1, h2, h3, h4, h5], by simp [h1, h2, h3, h4, h5]⟩
        by_cases h6 : verifyBalance d.payload.balanceProof cfg.apiPrice now v = true
        case neg =>
          exact Or.inl ⟨by simp [h1, h2, h3, h4, h5, h6], by simp [h1, h2, h3, h4, h5, h6]⟩
        refine Or.inr ⟨c, w, d, rfl, rfl, rfl, h1, h2, ?_, ?_, h4, h5, h6, ?_, ?_⟩
        · intro hc
          exact h3 (Or.inl hc)
        · intro hw
          exact h3 (Or.inr hw)
        · simp [h1, h2, h3, h4, h5, h6]
        · simp [h1, h2, h3, h4, h5, h6]

/-! Verification traces: a sequence of verify calls against one server
instance, each call atomic.  verifyPayment contains no suspension point
(no await between any two statements of its body), so under the
single-threaded JS event loop every concurrent execution of verify calls
is some serialization; quantifying over all call orders below therefore
covers all interleavings. -/

structure VerifyCall where
  xPaymentHeader : String
  commitment : Option String
  walletAddress : Option String
  now : Int
deriving DecidableEq

def runVerify (hashNote : String → String) (cfg : X402ServerConfig) (v : Int)
    (st : ServerState) (call : VerifyCall) : VerifyResult × ServerState :=
  verifyPayment hashNote cfg call.now v st call.xPaymentHeader call.commitment
    call.walletAddress

def runTrace (hashNote : String → String) (cfg : X402ServerConfig) (v : Int)
    (st : ServerState) : List VerifyCall → List (VerifyCall × VerifyResult) × ServerState
  | [] => ([], st)
  | call :: rest =>
    let r := runVerify hashNote cfg v st call
    let t := runTrace hashNote cfg v r.2 rest
    ((call, r.1) :: t.1, t.2)

/-- Number of calls in a trace that presented commitment c and got Ok. -/
def acceptedCount (c : String) (l : List (VerifyCall × VerifyResult)) : Nat :=
  (l.filter (fun x => decide (x.1.commitment = some c) &&
    decide (x.2 = VerifyResult.ok))).length

/-- The checks of verifyPayment before the double-spend check: decode,
scheme, network, header presence, hash binding. -/
def passesPreChecks (hashNote : String → String) (cfg : X402ServerConfig)
    (call : VerifyCall) : Bool :=
  match decodePayload call.xPaymentHeader with
  | none => false
  | some d =>
    match call.commitment, call.walletAddress with
    | some c, some w =>
      decide (d.scheme = "privacycash") && decide (d.network = expectedNetwork cfg) &&
        decide (¬(c = "")) && decide (¬(w = "")) &&
        decide (hashNote c = d.payload.noteHash)
    | _, _ => false

/-- The remaining check: the balance proof inside the payload verifies. -/
def balanceOk (cfg : X402ServerConfig) (v : Int) (call : VerifyCall) : Bool :=
  match decodePayload call.xPaymentHeader with
  | none => false
  | some d => verifyBalance d.payload.balanceProof cfg.apiPrice call.now v

/-- An otherwise-valid call in the sense of the double-spend exclusivity
property: it would be accepted were its commitment fresh. -/
def otherwiseValid (hashNote : String → String) (cfg : X402ServerConfig) (v : Int)
    (call : VerifyCall) : Bool :=
  passesPreChecks hashNote cfg call && balanceOk cfg v call

theorem passesPreChecks_iff (hashNote : String → String) (cfg : X402ServerConfig)
    (call : VerifyCall) :
    passesPreChecks hashNote cfg call = true ↔
      ∃ d c w, decodePayload call.xPaymentHeader = some d ∧ call.commitment = some c ∧
        call.walletAddress = some w ∧ d.scheme = "privacycash" ∧
        d.network = expectedNetwork cfg ∧ ¬(c = "") ∧ ¬(w = "") ∧
        hashNote c = d.payload.noteHash := by
  rw [passesPreChecks]
  cases hdec : decodePayload call.xPaymentHeader with
  | none => simp
  | some d =>
    cases hc : call.commitment with
    | none => simp [hc]
    | some c =>
      cases hw : call.walletAddress with
      | none => simp [hw]
      | some w =>
        simp only [Bool.and_eq_true, decide_eq_true_eq, Option.some.injEq]
        constructor
        · rintro ⟨⟨⟨⟨h1, h2⟩, h3⟩, h4⟩, h5⟩
          exact ⟨d, c, w, rfl, rfl, rfl, h1, h2, h3, h4, h5⟩
        · rintro ⟨d2, c2, w2, hd2, hc2, hw2, h1, h2, h3, h4, h5⟩
          cases hd2
          cases hc2
          cases hw2
          exact ⟨⟨⟨⟨h1, h2⟩, h3⟩, h4⟩, h5⟩


theorem runVerify_doubleSpend (hashNote : String → String) (cfg : X402ServerConfig)
    (v : Int) (st : ServerState) (call : VerifyCall) (c : String)
    (hc : call.commitment = some c) (hpass : passesPreChecks hashNote cfg call = true)
    (hused : c ∈ st.usedCommitments) :
    runVerify hashNote cfg v st call = (.doubleSpend c, st) := by
  obtain ⟨d, c2, w, hdec, hc2, hw, h1, h2, h3, h4, h5⟩ :=
    (passesPreChecks_iff hashNote cfg call).mp hpass
  rw [hc] at hc2
  cases hc2
  rw [runVerify, verifyPayment, hdec, hc, hw]
  simp [h1, h2, h3, h4, h5, hused]

theorem runVerify_ok (hashNote : String → String) (cfg : X402ServerConfig)
    (v : Int) (st : ServerState) (call : VerifyCall) (c : String)
    (hc : call.commitment = some c) (hpass : passesPreChecks hashNote cfg call = true)
    (hbal : balanceOk cfg v call = true) (hnotused : ¬(c ∈ st.usedCommitments)) :
    ∃ w, call.walletAddress = some w ∧
      runVerify hashNote cfg v st call =
        (.ok, ⟨setAdd st.usedCommitments c,
          mapSet st.pendingPayments ⟨c, cfg.apiPrice, w, call.now, true⟩⟩) := by
  obtain ⟨d, c2, w, hdec, hc2, hw, h1, h2, h3, h4, h5⟩ :=
    (passesPreChecks_iff hashNote cfg call).mp hpass
  rw [hc] at hc2
  cases hc2
  refine ⟨w, hw, ?_⟩
  simp only [balanceOk, hdec] at hbal
  rw [runVerify, verifyPayment, hdec, hc, hw]
  simp [h1, h2, h3, h4, h5, hnotused, hbal]

theorem runVerify_used_mono (hashNote : String → String) (cfg : X402ServerConfig)
    (v : Int) (st : ServerState) (call : VerifyCall) (x : String)
    (hx : x ∈ st.usedCommitments) :
    x ∈ (runVerify hashNote cfg v st call).2.usedCommitments := by
  rcases verifyPayment_cases hashNote cfg call.now v st call.xPaymentHeader
      call.commitment call.walletAddress with ⟨_, h2⟩ | ⟨c, w, d, _, _, _, _, _, _, _, _, _, _, _, h2⟩
  · rw [runVerify, h2]
    exact hx
  · rw [runVerify, h2]
    exact mem_setAdd_of_mem _ _ _ hx

theorem runVerify_ok_shape (hashNote : String → String) (cfg : X402ServerConfig)
    (v : Int) (st : ServerState) (call : VerifyCall)
    (hok : (runVerify hashNote cfg v st call).1 = .ok) :
    ∃ c, call.commitment = some c ∧ ¬(c ∈ st.usedCommitments) ∧
      (runVerify hashNote cfg v st call).2.usedCommitments = setAdd st.usedCommitments c ∧
      passesPreChecks hashNote cfg call = true ∧ balanceOk cfg v call = true := by
  rcases verifyPayment_cases hashNote cfg call.now v st call.xPaymentHeader
      call.commitment call.walletAddress with ⟨h1, _⟩ |
      ⟨c, w, d, hc, hw, hdec, hs, hn, hce, hwe, hh, hcu, hb, _, h2⟩
  · exact absurd hok h1
  · refine ⟨c, hc, hcu, ?_, ?_, ?_⟩
    · rw [runVerify, h2]
    · exact (passesPreChecks_iff hashNote cfg call).mpr
        ⟨d, c, w, hdec, hc, hw, hs, hn, hce, hwe, hh⟩
    · rw [balanceOk, hdec]
      exact hb

theorem runVerify_reject_state (hashNote : String → String) (cfg : X402ServerConfig)
    (v : Int) (st : ServerState) (call : VerifyCall)
    (hne : (runVerify hashNote cfg v st call).1 ≠ .ok) :
    (runVerify hashNote cfg v st call).2 = st := by
  rcases verifyPayment_cases hashNote cfg call.now v st call.xPaymentHeader
      call.commitment call.walletAddress with ⟨_, h2⟩ |
      ⟨c, w, d, _, _, _, _, _, _, _, _, _, _, h1, _⟩
  · rw [runVerify, h2]
  · rw [runVerify] at hne
    exact absurd h1 hne

theorem acceptedCount_cons (c : String) (x : VerifyCall × VerifyResult)
    (l : List (VerifyCall × VerifyResult)) :
    acceptedCount c (x :: l) =
      (if x.1.commitment = some c ∧ x.2 = VerifyResult.ok then 1 else 0) +
        acceptedCount c l := by
  by_cases h1 : x.1.commitment = some c
  · by_cases h2 : x.2 = VerifyResult.ok
    · simp [acceptedCount, List.filter_cons, h1, h2, Nat.add_comm]
    · simp [acceptedCount, List.filter_cons, h1, h2]
  · simp [acceptedCount, List.filter_cons, h1]

theorem runTrace_used_mono (hashNote : String → String) (cfg : X402ServerConfig)
    (v : Int) (calls : List VerifyCall) (st : ServerState) (x : String)
    (hx : x ∈ st.usedCommitments) :
    x ∈ (runTrace hashNote cfg v st calls).2.usedCommitments := by
  induction calls generalizing st with
  | nil => exact hx
  | cons call rest ih =>
    rw [runTrace]
    exact ih _ (runVerify_used_mono hashNote cfg v st call x hx)

theorem runTrace_acceptedCount_le (hashNote : String → String) (cfg : X402ServerConfig)
    (v : Int) (c : String) (calls : List VerifyCall) (st : ServerState) :
    acceptedCount c (runTrace hashNote cfg v st calls).1 ≤
      (if c ∈ st.usedCommitments then 0 else 1) := by
  induction calls generalizing st with
  | nil =>
    rw [runTrace]
    show acceptedCount c [] ≤ _
    rw [show acceptedCount c [] = 0 from rfl]
    omega
  | cons call rest ih =>
    rw [runTrace]
    show acceptedCount c ((call, (runVerify hashNote cfg v st call).1) :: _) ≤ _
    rw [acceptedCount_cons]
    by_cases hacc : call.commitment = some c ∧ (runVerify hashNote cfg v st call).1 = .ok
    · obtain ⟨c2, hc2, hnotused, hused2, _, _⟩ :=
        runVerify_ok_shape hashNote cfg v st call hacc.2
      rw [hacc.1] at hc2
      cases hc2
      have hmem : c ∈ (runVerify hashNote cfg v st call).2.usedCommitments := by
        rw [hused2]
        exact mem_setAdd_self _ _
      have hrest := ih ((runVerify hashNote cfg v st call).2)
      rw [if_pos hmem] at hrest
      rw [if_pos hacc, if_neg hnotused]
      omega
    · rw [if_neg hacc]
      have hrest := ih ((runVerify hashNote cfg v st call).2)
      by_cases hmem : c ∈ st.usedCommitments
      · rw [if_pos hmem]
        rw [if_pos (runVerify_used_mono hashNote cfg v st call c hmem)] at hrest
        omega
      · rw [if_neg hmem]
        have hle : acceptedCount c (runTrace hashNote cfg v
            ((runVerify hashNote cfg v st call).2) rest).1 ≤ 1 := by
          rcases le_or_lt (acceptedCount c (runTrace hashNote cfg v
              ((runVerify hashNote cfg v st call).2) rest).1) 1 with h | h
          · exact h
          · split_ifs at hrest <;> omega
        omega

theorem runTrace_accepted_mem (hashNote : String → String) (cfg : X402ServerConfig)
    (v : Int) (c : String) (calls : List VerifyCall) (st : ServerState)
    (h : 1 ≤ acceptedCount c (runTrace hashNote cfg v st calls).1) :
    c ∈ (runTrace hashNote cfg v st calls).2.usedCommitments := by
  induction calls generalizing st with
  | nil =>
    rw [runTrace] at h
    simp [acceptedCount] at h
  | cons call rest ih =>
    rw [runTrace] at h ⊢
    rw [show ((call, (runVerify hashNote cfg v st call).1) ::
        (runTrace hashNote cfg v ((runVerify hashNote cfg v st call).2) rest).1,
        (runTrace hashNote cfg v ((runVerify hashNote cfg v st call).2) rest).2).1 =
      (call, (runVerify hashNote cfg v st call).1) ::
        (runTrace hashNote cfg v ((runVerify hashNote cfg v st call).2) rest).1 from rfl,
      acceptedCount_cons] at h
    by_cases hacc : call.commitment = some c ∧ (runVerify hashNote cfg v st call).1 = .ok
    · obtain ⟨c2, hc2, _, hused2, _, _⟩ :=
        runVerify_ok_shape hashNote cfg v st call hacc.2
      rw [hacc.1] at hc2
      cases hc2
      have hmem : c ∈ (runVerify hashNote cfg v st call).2.usedCommitments := by
        rw [hused2]
        exact mem_setAdd_self _ _
      exact runTrace_used_mono hashNote cfg v rest _ c hmem
    · rw [if_neg hacc] at h
      exact ih _ (by omega)

theorem runTrace_all_doubleSpend (hashNote : String → String) (cfg : X402ServerConfig)
    (v : Int) (c : String) (st : ServerState) (calls : List VerifyCall)
    (hused : c ∈ st.usedCommitments)
    (hall : ∀ call ∈ calls, call.commitment = some c ∧
      passesPreChecks hashNote cfg call = true) :
    (runTrace hashNote cfg v st calls).1.map Prod.snd =
      List.replicate calls.length (VerifyResult.doubleSpend c) ∧
    (runTrace hashNote cfg v st calls).2 = st := by
  induction calls with
  | nil => exact ⟨rfl, rfl⟩
  | cons call rest ih =>
    obtain ⟨hc, hpass⟩ := hall call (by simp)
    have hr := runVerify_doubleSpend hashNote cfg v st call c hc hpass hused
    rw [runTrace, hr]
    obtain ⟨ih1, ih2⟩ := ih (fun x hx => hall x (by simp [hx]))
    refine ⟨?_, ih2⟩
    show VerifyResult.doubleSpend c :: _ = _
    rw [List.length_cons, List.replicate_succ, ih1]


/-! Scheduler and stats helper lemmas. -/

theorem mem_mapDelete (l : List PendingPayment) (c : String) (q : PendingPayment) :
    q ∈ mapDelete l c ↔ q ∈ l ∧ ¬(q.commitment = c) := by
  simp [mapDelete]

theorem mem_foldl_mapDelete (ps l : List PendingPayment) (q : PendingPayment) :
    q ∈ ps.foldl (fun acc p => mapDelete acc p.commitment) l ↔
      q ∈ l ∧ ∀ p ∈ ps, ¬(q.commitment = p.commitment) := by
  induction ps generalizing l with
  | nil => simp
  | cons p ps ih =>
    rw [List.foldl_cons, ih, mem_mapDelete]
    constructor
    · rintro ⟨⟨hq, hne⟩, hrest⟩
      refine ⟨hq, ?_⟩
      intro r hr
      rcases List.mem_cons.mp hr with rfl | hr2
      · exact hne
      · exact hrest r hr2
    · rintro ⟨hq, hall⟩
      exact ⟨⟨hq, hall p (by simp)⟩, fun r hr => hall r (by simp [hr])⟩

theorem foldl_mapDelete_self (l : List PendingPayment) :
    l.foldl (fun acc p => mapDelete acc p.commitment) l = [] := by
  rw [List.eq_nil_iff_forall_not_mem]
  intro q hq
  rw [mem_foldl_mapDelete] at hq
  exact hq.2 q hq.1 rfl

theorem pendingSum_eq_sum (l : List PendingPayment) :
    pendingSum l = (l.map (fun p => p.amount)).sum := by
  have haux : ∀ (l2 : List PendingPayment) (a : Int),
      l2.foldl (fun s p => s + p.amount) a = a + (l2.map (fun p => p.amount)).sum := by
    intro l2
    induction l2 with
    | nil => intro a; simp
    | cons p ps ih =>
      intro a
      rw [List.foldl_cons, ih]
      simp [Int.add_assoc]
  rw [pendingSum, haux]
  simp

/-! Characterization of verifyBalance against its inputs. -/

theorem verifyBalance_iff (blob : String) (required now validity : Int) :
    verifyBalance blob required now validity = true ↔
      ∃ proof, decodeBalanceProofBlob blob = some proof ∧
        now - proof.timestamp ≤ validity ∧ required ≤ proof.balance := by
  rw [verifyBalance]
  cases hdec : decodeBalanceProofBlob blob with
  | none => simp
  | some proof =>
    constructor
    · intro h
      have h2 : (if now - proof.timestamp > validity then false
          else if proof.balance < required then false else true) = true := h
      split_ifs at h2 with ht hb
      all_goals exact ⟨proof, rfl, by omega, by omega⟩
    · rintro ⟨proof2, hp2, h1, h2⟩
      rw [Option.some.injEq] at hp2
      cases hp2
      show (if now - proof.timestamp > validity then false
        else if proof.balance < required then false else true) = true
      rw [if_neg (by omega), if_neg (by omega)]


/-! JS-faithful model of the untyped decode path.  The source casts the
result of JSON.parse with no runtime validation (src/src/server/index.ts
lines 141 and 200), so valid JSON that violates the payload schemas flows
on into the checks, where an absent property reads as undefined,
arithmetic on undefined yields NaN, every NaN comparison is false, and a
property access on undefined or null throws TypeError.  The model below
captures these semantics on the fragment the code-bug demonstrations
exercise: whitespace-free JSON documents (the format JSON.stringify
emits) built from objects, escape-free strings, decimal integers and the
three literals. -/

inductive JsValue where
  | undef : JsValue
  | jsNull : JsValue
  | bool (b : Bool) : JsValue
  | num (n : Int) : JsValue
  | str (s : String) : JsValue
  | obj (fields : List (String × JsValue)) : JsValue

/-- JS property access: a field of an object, undefined when the field is
absent or the base is a primitive other than undefined and null; access on
those two throws instead and is handled at the use sites. -/
def objGet : JsValue → String → JsValue
  | JsValue.obj fields, k => (fields.lookup k).getD JsValue.undef
  | _, _ => JsValue.undef

/-- ToNumber coercion, with none standing for NaN.  String forms beyond
plain decimal integers are outside the modelled fragment. -/
def jsToNumber : JsValue → Option Int
  | JsValue.undef => none
  | JsValue.jsNull => some 0
  | JsValue.bool b => some (if b then 1 else 0)
  | JsValue.num n => some n
  | JsValue.str s =>
    match parseInt s.data with
    | some (n, []) => some n
    | _ => none
  | JsValue.obj _ => none

/-- JS subtraction of a value from a number, NaN-propagating. -/
def jsSub (a : Int) (v : JsValue) : Option Int := (jsToNumber v).map (fun n => a - n)

/-- JS relational greater-than against a number: false on NaN. -/
def jsGt (x : Option Int) (k : Int) : Bool :=
  match x with
  | none => false
  | some n => decide (n > k)

/-- JS relational less-than against a number: false on NaN. -/
def jsLt (x : Option Int) (k : Int) : Bool :=
  match x with
  | none => false
  | some n => decide (n < k)

/-- JS strict equality of a value against a string: never true for a
value of another type. -/
def jsStrictEqStr (v : JsValue) (s : String) : Bool :=
  match v with
  | JsValue.str t => decide (t = s)
  | _ => false

/-- String interpolation of a value, as in the template literals of the
error messages. -/
def jsDisplay : JsValue → String
  | JsValue.undef => "undefined"
  | JsValue.jsNull => "null"
  | JsValue.bool b => if b then "true" else "false"
  | JsValue.num n => toString n
  | JsValue.str s => s
  | JsValue.obj _ => "[object Object]"

/-- Scanner for a JSON string without escape sequences (the fragment the
demonstrations use), after the opening quote. -/
def scanPlainString : List Char → Option (List Char × List Char)
  | [] => none
  | c :: rest =>
    if c = qt then some ([], rest)
    else if c = bsl then none
    else (scanPlainString rest).map (fun p => (c :: p.1, p.2))

mutual

def parseJsonVal : Nat → List Char → Option (JsValue × List Char)
  | 0, _ => none
  | Nat.succ _, [] => none
  | Nat.succ fuel, c :: rest =>
    if c = qt then
      (scanPlainString rest).map (fun p => (JsValue.str (String.mk p.1), p.2))
    else if c = Char.ofNat 123 then
      match rest with
      | [] => none
      | c2 :: rest2 =>
        if c2 = Char.ofNat 125 then some (JsValue.obj [], rest2)
        else (parseJsonMembers fuel (c2 :: rest2)).map (fun p => (JsValue.obj p.1, p.2))
    else if c = Char.ofNat 116 then
      (expectLit [Char.ofNat 114, Char.ofNat 117, Char.ofNat 101] rest).map
        (fun r => (JsValue.bool true, r))
    else if c = Char.ofNat 102 then
      (expectLit [Char.ofNat 97, Char.ofNat 108, Char.ofNat 115, Char.ofNat 101] rest).map
        (fun r => (JsValue.bool false, r))
    else if c = Char.ofNat 110 then
      (expectLit [Char.ofNat 117, Char.ofNat 108, Char.ofNat 108] rest).map
        (fun r => (JsValue.jsNull, r))
    else (parseInt (c :: rest)).map (fun p => (JsValue.num p.1, p.2))

def parseJsonMembers : Nat → List Char → Option (List (String × JsValue) × List Char)
  | 0, _ => none
  | Nat.succ _, [] => none
  | Nat.succ fuel, c :: rest =>
    if c = qt then
      match scanPlainString rest with
      | none => none
      | some (key, rest2) =>
        match rest2 with
        | [] => none
        | c2 :: rest3 =>
          if c2 = Char.ofNat 58 then
            match parseJsonVal fuel rest3 with
            | none => none
            | some (v, rest4) =>
              match rest4 with
              | [] => none
              | c3 :: rest5 =>
                if c3 = Char.ofNat 44 then
                  (parseJsonMembers fuel rest5).map
                    (fun p => ((String.mk key, v) :: p.1, p.2))
                else if c3 = Char.ofNat 125 then some ([(String.mk key, v)], rest5)
                else none
          else none
    else none

end

/-- JSON.parse on the modelled fragment: the whole input must form one
document. -/
def jsonParseChars (chars : List Char) : Option JsValue :=
  match parseJsonVal (chars.length + 1) chars with
  | some (v, []) => some v
  | _ => none

/-- The untyped decode of src/src/server/index.ts lines 141 and 200:
base64 then UTF-8 then JSON.parse, with no schema check. -/
def jsonParseBlob (s : String) : Option JsValue :=
  (base64Decode s.data).bind (fun bytes => (utf8Decode bytes).bind
    (fun chars => jsonParseChars chars))

/-- verifyBalance exactly as the source executes it on arbitrary JSON
(lines 198 to 222): the parsed value is used unchecked, an absent field
reads as undefined, and both guards are NaN comparisons that are skipped
when the field is missing.  A parse failure, or the TypeError of a
property access on null, happens inside the try and yields false. -/
def verifyBalanceJS (balanceProof : String) (required now validity : Int) : Bool :=
  match jsonParseBlob balanceProof with
  | none => false
  | some JsValue.jsNull => false
  | some proof =>
    if jsGt (jsSub now (objGet proof "timestamp")) validity then false
    else if jsLt (jsToNumber (objGet proof "balance")) required then false
    else true

/-- Outcome of the source verifyPayment on arbitrary JSON: one of the
discriminated results, or an uncaught TypeError, which the middleware
surfaces as a 500 response outside the error taxonomy. -/
inductive JsOutcome where
  | result (r : VerifyResult) : JsOutcome
  | typeError : JsOutcome
deriving DecidableEq

/-- verifyPayment exactly as the source executes it on arbitrary JSON
(lines 133 to 192): only the JSON.parse of line 141 sits inside the try,
so a TypeError raised later (reading noteHash off an undefined or null
payload field, line 164, or any property off a null document, line 147)
escapes the method and reaches the middleware as a 500.  The scheme and
network comparisons are strict inequalities against whatever value sits at
those keys, and the NetworkMismatchError receives the interpolated
received value. -/
def verifyPaymentJS (hashNote : String → String) (cfg : X402ServerConfig)
    (now v : Int) (st : ServerState) (xPaymentHeader : String)
    (commitment walletAddress : Option String) : JsOutcome × ServerState :=
  match jsonParseBlob xPaymentHeader with
  | none => (.result (.invalidPayment "Invalid X-Payment header encoding"), st)
  | some JsValue.jsNull => (.typeError, st)
  | some decoded =>
    if jsStrictEqStr (objGet decoded "scheme") "privacycash" = false then
      (.result (.invalidPayment ("Invalid payment scheme: " ++
        jsDisplay (objGet decoded "scheme"))), st)
    else if jsStrictEqStr (objGet decoded "network") (expectedNetwork cfg) = false then
      (.result (.networkMismatch (expectedNetwork cfg)
        (jsDisplay (objGet decoded "network"))), st)
    else
      match commitment, walletAddress with
      | some c, some w =>
        if c = "" ∨ w = "" then
          (.result (.invalidPayment "Missing X-Privacy-Commitment or X-Wallet-Address header"),
            st)
        else
          match objGet decoded "payload" with
          | JsValue.undef => (.typeError, st)
          | JsValue.jsNull => (.typeError, st)
          | payloadV =>
            if jsStrictEqStr (objGet payloadV "noteHash") (hashNote c) = false then
              (.result (.invalidPayment "Commitment hash mismatch"), st)
            else if c ∈ st.usedCommitments then
              (.result (.doubleSpend c), st)
            else if (match objGet payloadV "balanceProof" with
                | JsValue.str s => verifyBalanceJS s cfg.apiPrice now v
                | _ => false) = false then
              (.result (.insufficientBalance cfg.apiPrice), st)
            else
              (.result .ok,
                ⟨setAdd st.usedCommitments c,
                  mapSet st.pendingPayments ⟨c, cfg.apiPrice, w, now, true⟩⟩)
      | _, _ =>
        (.result (.invalidPayment "Missing X-Privacy-Commitment or X-Wallet-Address header"),
          st)

/-! Sample objects used by the witnesses. -/

def sampleCfg : X402ServerConfig := ⟨"merchant", 10000000, "devnet"⟩

def sampleBalanceProof : BalanceProof := ⟨10000000, 95, "w"⟩

def sampleBody : PayloadBody :=
  ⟨"HASH", "abc", 1000, encodeBalanceProofBlob sampleBalanceProof⟩

def sampleOkPayload : PaymentPayload := ⟨1, "privacycash", "solana-devnet", sampleBody⟩

def sampleWrongHashPayload : PaymentPayload :=
  ⟨1, "privacycash", "solana-devnet", ⟨"OTHER", "abc", 1000, "blob"⟩⟩

def sampleWrongNetPayload : PaymentPayload :=
  ⟨1, "privacycash", "solana-mainnet-beta", ⟨"HASH", "abc", 1000, "blob"⟩⟩

def sampleHash : String → String := fun _ => "HASH"

def sampleOkCall : VerifyCall :=
  ⟨encodePayload sampleOkPayload, some "abc", some "w", 100⟩

/-- Valid JSON that passes the scheme and network comparisons but carries
no payload object at all. -/
def noPayloadText : String :=
  "\x7b\"x402Version\":1,\"scheme\":\"privacycash\",\"network\":\"solana-devnet\"\x7d"

def noPayloadHeader : String := String.mk (base64Encode (utf8Encode noPayloadText.data))

/-! The claims. -/

/-- C8: for every well-formed PaymentPayload p, decoding the encoded
transport representation yields p again; encode is base64 of the JSON
serialization and decode is JSON-parse of the base64-decoded string. -/
theorem C8_payload_roundTrip (p : PaymentPayload) :
    decodePayload (encodePayload p) = some p :=
  decode_encodePayload p

/-- C3: whenever the payload decodes and passes the scheme, network and
header-presence checks, a hash-binding mismatch between the commitment
hash and payload.noteHash is rejected with InvalidPayment, for every
possible remaining payload content and ledger state. -/
theorem C3_hash_binding (hashNote : String → String) (cfg : X402ServerConfig)
    (now v : Int) (st : ServerState) (h : String) (c w : String) (d : PaymentPayload)
    (hdec : decodePayload h = some d) (hscheme : d.scheme = "privacycash")
    (hnet : d.network = expectedNetwork cfg) (hc : ¬(c = "")) (hw : ¬(w = ""))
    (hmis : ¬(hashNote c = d.payload.noteHash)) :
    verifyPayment hashNote cfg now v st h (some c) (some w) =
      (.invalidPayment "Commitment hash mismatch", st) := by
  rw [verifyPayment, hdec]
  simp [hscheme, hnet, hc, hw, hmis]

theorem C3_hash_binding_witness :
    verifyPayment sampleHash sampleCfg 100 300000 initState
      (encodePayload sampleWrongHashPayload) (some "abc") (some "w") =
      (.invalidPayment "Commitment hash mismatch", initState) :=
  C3_hash_binding sampleHash sampleCfg 100 300000 initState _ "abc" "w"
    sampleWrongHashPayload (decode_encodePayload sampleWrongHashPayload) rfl (by decide)
    (by decide) (by decide) (by decide)

/-- C10: a verify call that rejects leaves the ledger exactly as it was;
the ledger changes only on a call that returns Ok. -/
theorem C10_reject_preserves_state (hashNote : String → String)
    (cfg : X402ServerConfig) (now v : Int) (st : ServerState) (h : String)
    (c? w? : Option String) :
    ((verifyPayment hashNote cfg now v st h c? w?).1 ≠ .ok →
      (verifyPayment hashNote cfg now v st h c? w?).2 = st) ∧
    ((verifyPayment hashNote cfg now v st h c? w?).2 ≠ st →
      (verifyPayment hashNote cfg now v st h c? w?).1 = .ok) := by
  rcases verifyPayment_cases hashNote cfg now v st h c? w? with ⟨h1, h2⟩ |
    ⟨c, w, d, _, _, _, _, _, _, _, _, _, _, h1, h2⟩
  · exact ⟨fun _ => h2, fun hne => absurd h2 hne⟩
  · exact ⟨fun hne => absurd h1 hne, fun _ => h1⟩

theorem C10_reject_preserves_state_witness :
    (verifyPayment sampleHash sampleCfg 100 300000 initState "!!!" none none).2 =
      initState :=
  (C10_reject_preserves_state sampleHash sampleCfg 100 300000 initState "!!!"
    none none).1 (by decide)


/-- C7: when the network check fails, the middleware surfaces a 400
rejection whose body is the serialized NetworkMismatchError carrying both
the expected and the received network values: the head field of the body
is the message naming both, and that string decomposes as literal frames
around exactly the two values. -/
theorem C7_network_mismatch_carries_values (hashNote : String → String)
    (cfg : X402ServerConfig) (now v : Int) (st : ServerState) (h : String)
    (c? w? : Option String) (d : PaymentPayload) (hne : ¬(h = ""))
    (hdec : decodePayload h = some d) (hscheme : d.scheme = "privacycash")
    (hmis : ¬(d.network = expectedNetwork cfg)) :
    middleware hashNote cfg now v st (some h) c? w? =
      (.reject 400 (errorToJSON (.networkMismatch (expectedNetwork cfg) d.network)), st) ∧
    (errorToJSON (.networkMismatch (expectedNetwork cfg) d.network)).head? =
      some ("error", .s ("Network mismatch. Expected: " ++ expectedNetwork cfg ++
        ", Received: " ++ d.network)) ∧
    ("Network mismatch. Expected: " ++ expectedNetwork cfg ++ ", Received: " ++
      d.network).data =
      "Network mismatch. Expected: ".data ++ (expectedNetwork cfg).data ++
        (", Received: ".data ++ d.network.data) := by
  have hv : verifyPayment hashNote cfg now v st h c? w? =
      (.networkMismatch (expectedNetwork cfg) d.network, st) := by
    rw [verifyPayment, hdec]
    simp [hscheme, hmis]
  refine ⟨?_, rfl, ?_⟩
  · simp only [middleware, hne, if_neg, hv, errorStatusCode]
    rfl
  · simp [String.data_append]

theorem C7_network_mismatch_witness :
    middleware sampleHash sampleCfg 100 300000 initState
      (some (encodePayload sampleWrongNetPayload)) (some "abc") (some "w") =
      (.reject 400 (errorToJSON (.networkMismatch "solana-devnet"
        "solana-mainnet-beta")), initState) := by
  have hdec0 : decodePayload "" = none := by
    rw [decodePayload]
    rw [show ("" : String).data = [] from rfl]
    rw [show base64Decode [] = some [] from by rw [base64Decode]]
    rw [Option.some_bind]
    rw [show utf8Decode [] = some [] from by rw [utf8Decode]]
    rw [Option.some_bind]
    rfl
  have h := (C7_network_mismatch_carries_values sampleHash sampleCfg 100 300000
    initState (encodePayload sampleWrongNetPayload) (some "abc") (some "w")
    sampleWrongNetPayload (by
      intro he
      have hd := decode_encodePayload sampleWrongNetPayload
      rw [he, hdec0] at hd
      exact Option.noConfusion hd)
    (decode_encodePayload sampleWrongNetPayload) rfl (by decide)).1
  rw [h]
  decide

/-- C1: over any sequence of verify calls on one server instance started
fresh, a commitment c is accepted at most once; once some call presenting
c has been accepted, any later call presenting c that passes the decode,
scheme, network, header-presence and hash-binding checks is answered
DoubleSpend; in particular an identical resubmission of an accepted
request is answered DoubleSpend. -/
theorem C1_commitment_accepted_at_most_once (hashNote : String → String)
    (cfg : X402ServerConfig) (v : Int) (c : String) (calls : List VerifyCall) :
    acceptedCount c (runTrace hashNote cfg v initState calls).1 ≤ 1 ∧
    (∀ pre call suf, calls = pre ++ call :: suf →
      1 ≤ acceptedCount c (runTrace hashNote cfg v initState pre).1 →
      call.commitment = some c → passesPreChecks hashNote cfg call = true →
      (runVerify hashNote cfg v (runTrace hashNote cfg v initState pre).2 call).1 =
        .doubleSpend c) ∧
    (∀ st r, (runVerify hashNote cfg v st r).1 = .ok →
      ∃ c0, r.commitment = some c0 ∧
        (runVerify hashNote cfg v (runVerify hashNote cfg v st r).2 r).1 =
          .doubleSpend c0) := by
  refine ⟨?_, ?_, ?_⟩
  · have h := runTrace_acceptedCount_le hashNote cfg v c calls initState
    rw [if_neg (by simp [initState])] at h
    exact h
  · intro pre call suf hcalls hacc hc hpass
    have hmem := runTrace_accepted_mem hashNote cfg v c pre initState hacc
    rw [runVerify_doubleSpend hashNote cfg v _ call c hc hpass hmem]
  · intro st r hok
    obtain ⟨c0, hc0, _, hused2, hpass, _⟩ := runVerify_ok_shape hashNote cfg v st r hok
    refine ⟨c0, hc0, ?_⟩
    have hmem : c0 ∈ (runVerify hashNote cfg v st r).2.usedCommitments := by
      rw [hused2]
      exact mem_setAdd_self _ _
    rw [runVerify_doubleSpend hashNote cfg v _ r c0 hc0 hpass hmem]

theorem C1_witness :
    ∃ c0, sampleOkCall.commitment = some c0 ∧
      (runVerify sampleHash sampleCfg 10
        (runVerify sampleHash sampleCfg 10 initState sampleOkCall).2 sampleOkCall).1 =
        .doubleSpend c0 := by
  have hpass : passesPreChecks sampleHash sampleCfg sampleOkCall = true :=
    (passesPreChecks_iff sampleHash sampleCfg sampleOkCall).mpr
      ⟨sampleOkPayload, "abc", "w", decode_encodePayload sampleOkPayload, rfl, rfl, rfl,
        by decide, by decide, by decide, rfl⟩
  have hbal : balanceOk sampleCfg 10 sampleOkCall = true := by
    rw [balanceOk]
    rw [show sampleOkCall.xPaymentHeader = encodePayload sampleOkPayload from rfl,
      decode_encodePayload]
    exact (verifyBalance_iff _ _ _ _).mpr
      ⟨sampleBalanceProof, decode_encodeBalanceProofBlob sampleBalanceProof,
        by decide, by decide⟩
  obtain ⟨w, hw, hr⟩ := runVerify_ok sampleHash sampleCfg 10 initState sampleOkCall
    "abc" rfl hpass hbal (by simp [initState])
  exact (C1_commitment_accepted_at_most_once sampleHash sampleCfg 10 "abc" []).2.2
    initState sampleOkCall (by rw [hr])

/-- C2: for any commitment c, across any number of verify calls presenting
c with otherwise-valid payloads, exactly one call returns Ok and every
other returns DoubleSpend.  Each verifyPayment body has no suspension
point, so it runs atomically on the JS event loop; quantifying over every
call order covers every interleaving of concurrent calls. -/
theorem C2_double_spend_exclusivity (hashNote : String → String)
    (cfg : X402ServerConfig) (v : Int) (c : String) (st : ServerState)
    (calls : List VerifyCall) (hnotused : ¬(c ∈ st.usedCommitments))
    (hne : calls ≠ [])
    (hall : ∀ call ∈ calls, call.commitment = some c ∧
      otherwiseValid hashNote cfg v call = true) :
    (runTrace hashNote cfg v st calls).1.map Prod.snd =
      VerifyResult.ok :: List.replicate (calls.length - 1) (.doubleSpend c) := by
  cases calls with
  | nil => exact absurd rfl hne
  | cons call rest =>
    obtain ⟨hc, hval⟩ := hall call (by simp)
    rw [otherwiseValid, Bool.and_eq_true] at hval
    obtain ⟨w, hw, hr⟩ := runVerify_ok hashNote cfg v st call c hc hval.1 hval.2 hnotused
    rw [runTrace, hr]
    have hmem : c ∈ (ServerState.mk (setAdd st.usedCommitments c)
        (mapSet st.pendingPayments ⟨c, cfg.apiPrice, w, call.now, true⟩)).usedCommitments :=
      mem_setAdd_self _ _
    obtain ⟨h1, _⟩ := runTrace_all_doubleSpend hashNote cfg v c _ rest hmem
      (fun x hx => ⟨(hall x (by simp [hx])).1, by
        have h2 := (hall x (by simp [hx])).2
        rw [otherwiseValid, Bool.and_eq_true] at h2
        exact h2.1⟩)
    show VerifyResult.ok :: _ = _
    rw [h1]
    simp

theorem C2_witness :
    (runTrace sampleHash sampleCfg 10 initState [sampleOkCall, sampleOkCall]).1.map
        Prod.snd = [VerifyResult.ok, VerifyResult.doubleSpend "abc"] := by
  have hpass : passesPreChecks sampleHash sampleCfg sampleOkCall = true :=
    (passesPreChecks_iff sampleHash sampleCfg sampleOkCall).mpr
      ⟨sampleOkPayload, "abc", "w", decode_encodePayload sampleOkPayload, rfl, rfl, rfl,
        by decide, by decide, by decide, rfl⟩
  have hbal : balanceOk sampleCfg 10 sampleOkCall = true := by
    rw [balanceOk]
    rw [show sampleOkCall.xPaymentHeader = encodePayload sampleOkPayload from rfl,
      decode_encodePayload]
    exact (verifyBalance_iff _ _ _ _).mpr
      ⟨sampleBalanceProof, decode_encodeBalanceProofBlob sampleBalanceProof,
        by decide, by decide⟩
  have h := C2_double_spend_exclusivity sampleHash sampleCfg 10 "abc" initState
    [sampleOkCall, sampleOkCall] (by simp [initState]) (by simp)
    (fun call hcall => by
      rcases List.mem_cons.mp hcall with rfl | hcall2
      · exact ⟨rfl, by rw [otherwiseValid, hpass, hbal]; rfl⟩
      · rcases List.mem_singleton.mp hcall2 with rfl
        exact ⟨rfl, by rw [otherwiseValid, hpass, hbal]; rfl⟩)
  rw [h]
  rfl


/-- C5: a scheduler tick over a non-empty all-verified pending set with a
merchant credential issues exactly one withdraw call for the sum of the
pending amounts; on success every batch entry is removed from the ledger
with the redeemed set untouched, and on failure the whole state is exactly
as before, the entries awaiting the next tick; the function is total, so
the failure cannot crash the scheduler loop.  The pending entries are all
verified by construction: the verifier enqueues only verified records. -/
theorem C5_scheduler_batch (cfg : X402ServerConfig) (st : ServerState) (ok : Bool)
    (hne : st.pendingPayments ≠ [])
    (hver : ∀ p ∈ st.pendingPayments, p.verified = true) :
    (processMerchantWithdrawals cfg true ok st).2 =
      [⟨pendingSum st.pendingPayments, cfg.merchantWallet⟩] ∧
    (ok = true → (processMerchantWithdrawals cfg true ok st).1 =
      ⟨st.usedCommitments, []⟩) ∧
    (ok = false → (processMerchantWithdrawals cfg true ok st).1 = st) := by
  have hfilter : st.pendingPayments.filter (fun p => p.verified) = st.pendingPayments :=
    List.filter_eq_self.mpr (fun a ha => by rw [hver a ha])
  have hempty : ¬(st.pendingPayments.isEmpty = true) := by
    rw [List.isEmpty_iff]
    exact hne
  rw [processMerchantWithdrawals]
  simp only [hfilter]
  rw [if_neg hempty, if_neg (by simp)]
  cases ok with
  | true =>
    rw [if_pos rfl]
    refine ⟨rfl, fun _ => ?_, fun hfalse => Bool.noConfusion hfalse⟩
    rw [foldl_mapDelete_self]
  | false =>
    rw [if_neg (by simp)]
    exact ⟨rfl, fun htrue => Bool.noConfusion htrue, fun _ => rfl⟩

theorem C5_scheduler_batch_witness :
    (processMerchantWithdrawals sampleCfg true false
        ⟨["u"], [⟨"c1", 5, "w", 0, true⟩]⟩).2 = [⟨5, "merchant"⟩] ∧
    (processMerchantWithdrawals sampleCfg true false
        ⟨["u"], [⟨"c1", 5, "w", 0, true⟩]⟩).1 = ⟨["u"], [⟨"c1", 5, "w", 0, true⟩]⟩ := by
  have h := C5_scheduler_batch sampleCfg ⟨["u"], [⟨"c1", 5, "w", 0, true⟩]⟩ false
    (by decide) (by decide)
  exact ⟨h.1.trans (by decide), h.2.2 rfl⟩

/-- C9 counterexample: the claim says the totalPendingAmount field equals
the sum of the pending amounts in the smallest currency unit; on a ledger
holding one pending payment of 10000000 lamports the code reports
10000000 divided by 1e9, not 10000000. -/
theorem C9_counterexample :
    ¬((getStats ⟨[], [⟨"c1", 10000000, "w", 0, true⟩]⟩).totalPendingAmount =
      ((pendingSum [⟨"c1", 10000000, "w", 0, true⟩] : Int) : Rat)) := by
  simp only [getStats]
  rw [show pendingSum [⟨"c1", 10000000, "w", 0, true⟩] = 10000000 from rfl]
  norm_num

/-- C9 amended: stats is a read-only projection whose fields are the count
of redeemed commitments, the count of pending payments, and the sum of the
pending amounts divided by 1e9 (the source converts lamports to SOL before
reporting). -/
theorem C9_stats_projection (st : ServerState) :
    (getStats st).usedCommitments = st.usedCommitments.length ∧
    (getStats st).pendingPayments = st.pendingPayments.length ∧
    (getStats st).totalPendingAmount =
      (((st.pendingPayments.map (fun p => p.amount)).sum : Int) : Rat) / 1000000000 := by
  refine ⟨rfl, rfl, ?_⟩
  show ((pendingSum st.pendingPayments : Int) : Rat) / 1000000000 = _
  rw [pendingSum_eq_sum]


/-- C4 code bug: at balanceProof e30= (the base64 of an empty JSON
object) the source verifyBalance returns true: JSON.parse yields an empty
object, Date.now() minus undefined is NaN so the freshness guard is
skipped, and undefined is not below required so the balance guard is
skipped too.  The claim, like spec section 4.3, demands false here, since
the blob does not decode to a balance, timestamp, wallet record: the
second conjunct shows the schema decode fails on this very blob. -/
theorem C4_code_bug :
    verifyBalanceJS "e30=" 10000000 100 300000 = true ∧
    decodeBalanceProofBlob "e30=" = none := by
  constructor
  · decide
  · decide

/-- C6 code bug: at a header whose JSON carries x402Version, scheme and
network but no payload object, the source passes the scheme and network
checks and then throws TypeError reading decoded.payload.noteHash; the
error escapes verifyPayment (only the JSON.parse of line 141 is inside the
try) and the middleware surfaces a 500, which is no check of the claimed
sequence.  The second conjunct shows the schema decode of spec section 4.2
fails on this header, so the claimed earliest failing check is the decode
step with InvalidPayment, not a crash. -/
theorem C6_code_bug :
    verifyPaymentJS sampleHash sampleCfg 100 300000 initState noPayloadHeader
      (some "abc") (some "w") = (.typeError, initState) ∧
    decodePayload noPayloadHeader = none := by
  constructor
  · decide
  · decide


end P402
